import Mathlib

/-!
Verification of the strikeout-projection engine.

This file gives a shallow embedding of the projection core
(`stats_logic.py`, `modifiers.py`, `models.py`, `simulator.py`,
`constants.py`, `preprocessor.py`) and proves/refutes the frozen claims
about it.  Python floats are modelled as real numbers; `dict.get` with a
default becomes `Option.getD`; a Python function that can raise to its
caller and is caught there becomes an `Option`-valued lookup; external
fuzzy string matching (the standard library's `difflib.get_close_matches`,
which is not part of this repository) is modelled as an oracle supplied by
the environment.
-/

namespace Booty

open scoped Classical

/-- `np.clip(x, lo, hi)` on scalars. -/
noncomputable def clip (x lo hi : ℝ) : ℝ := min (max x lo) hi

/-- `np.mean` of a Python list. -/
noncomputable def mean (l : List ℝ) : ℝ := l.sum / l.length

/-- Dot product of two equally long lists, `np.dot`. -/
noncomputable def dotList (a b : List ℝ) : ℝ := (List.zipWith (fun x y => x * y) a b).sum

/-- Python `l[-n:]`. -/
def lastN (n : ℕ) (l : List ℝ) : List ℝ := l.drop (l.length - n)

/-- Population standard deviation, `np.std`. -/
noncomputable def listStd (l : List ℝ) : ℝ :=
  Real.sqrt (mean (l.map fun x => (x - mean l) ^ (2 : ℕ)))

/-- Substring test on character lists: Python's `needle in hay`. -/
def listInfix : List Char → List Char → Bool
  | n, [] => n.isEmpty
  | n, c :: t => n.isPrefixOf (c :: t) || listInfix n t

/-- Python `needle in hay` for strings. -/
def strContains (hay needle : String) : Bool := listInfix needle.toList hay.toList

/-- constants.py: `LEAGUE_AVG_TEAM_K_PCT = 0.195`. -/
noncomputable def LEAGUE_AVG_TEAM_K_PCT : ℝ := 0.195

/-- constants.py: `LEAGUE_AVG_K = 6.5`. -/
noncomputable def LEAGUE_AVG_K : ℝ := 6.5

/-- Throwing/batting hand.  The source stores hands as the strings
`"L"`/`"R"` (defaulting to `"R"` whenever absent); the embedding uses a
two-valued type. -/
inductive Hand
  | L
  | R
deriving DecidableEq, Repr

/-- constants.py `PLATOON_MATCHUPS`: the fixed 2-by-2 table keyed by
(pitcher hand, batter hand). -/
noncomputable def PLATOON_MATCHUPS : Hand → Hand → ℝ
  | Hand.L, Hand.L => 0.93
  | Hand.L, Hand.R => 1.07
  | Hand.R, Hand.R => 0.95
  | Hand.R, Hand.L => 1.05

/-- Modelled from the spec: `get_platoon_modifier` is imported by
models.py from the modifier library, but its definition is absent from
the source tree (modifiers.py only defines `get_dynamic_platoon_modifier`,
which models.py does not call).  The spec defines the platoon modifier as
the lookup in the fixed 2-by-2 table `PLATOON_MATCHUPS` of constants.py
keyed by (pitcher hand, batter hand). -/
noncomputable def get_platoon_modifier (pitcher_hand batter_hand : Hand) : ℝ :=
  PLATOON_MATCHUPS pitcher_hand batter_hand

/-- constants.py `PARK_FACTORS` (insertion order preserved: Python dicts
iterate in insertion order, and `get_park_modifier` takes the first
substring hit). -/
noncomputable def PARK_FACTORS : List (String × ℝ) :=
  [("Angel Stadium", 0.980),
   ("Busch Stadium", 0.970),
   ("Chase Field", 1.030),
   ("Citizens Bank Park", 1.020),
   ("Citi Field", 1.030),
   ("Comerica Park", 0.950),
   ("Coors Field", 0.930),
   ("Dodger Stadium", 1.000),
   ("Fenway Park", 0.960),
   ("Globe Life Field", 0.980),
   ("Great American Ball Park", 1.070),
   ("Guaranteed Rate Field", 1.050),
   ("Kauffman Stadium", 0.960),
   ("loanDepot Park", 0.970),
   ("Minute Maid Park", 1.010),
   ("Nationals Park", 1.020),
   ("Oakland Coliseum", 0.940),
   ("Oracle Park", 1.030),
   ("Petco Park", 0.970),
   ("PNC Park", 1.000),
   ("Progressive Field", 0.990),
   ("Rogers Centre", 1.000),
   ("T-Mobile Park", 0.980),
   ("Target Field", 1.000),
   ("Tropicana Field", 0.980),
   ("Truist Park", 1.030),
   ("Wrigley Field", 1.010),
   ("Yankee Stadium", 1.050),
   ("American Family Field", 1.020),
   ("Oriole Park at Camden Yards", 1.010)]

/-- constants.py `CATCHER_FRAMING_DICT`. -/
noncomputable def CATCHER_FRAMING_DICT : List (String × ℝ) :=
  [("Jonah Heim", 0.00),
   ("Logan O\x27Hoppe", -0.33),
   ("Francisco Alvarez", -0.22),
   ("Connor Wong", 0.11),
   ("Korey Lee", 0.00),
   ("Jose Trevino", 0.00),
   ("Henry Davis", -0.11),
   ("Salvador Perez", 0.11),
   ("Keibert Ruiz", -0.44),
   ("Sean Murphy", 0.00),
   ("Kyle Higashioka", 0.11),
   ("Cal Raleigh", 0.22),
   ("Patrick Bailey", 0.44),
   ("Yainer Diaz", -0.22),
   ("Gabriel Moreno", 0.33)]

/-- stats_logic.py `calculate_ewma`.  `np.arange(n)[::-1]` is
`[n-1, ..., 1, 0]`, so the raw weight at position `j` (0-based from the
start of the list) is `exp(-alpha * (n - 1 - j))`; the weights are then
normalized to sum to 1 and dotted with the values.  The Python default
`alpha=0.25` is passed explicitly at every call site of the embedding. -/
noncomputable def calculate_ewma (values : List ℝ) (alpha : ℝ) : ℝ :=
  if values.isEmpty then 5.0
  else
    let n := values.length
    let raw := (List.range n).map fun (j : ℕ) => Real.exp (-alpha * ((n : ℝ) - 1 - (j : ℝ)))
    let s := raw.sum
    dotList (raw.map fun w => w / s) values

/-- One cached game log (models.py `get_recent_ks_and_ip`): the source
extracts `log.get("strikeouts", 0)` and `parse_ip(log.get("innings_pitched", 0))`.
Both fields are modelled as already-numeric reals (`parse_ip` on a number
is the identity). -/
structure GameLog where
  strikeouts : ℝ
  innings_pitched : ℝ

/-- A pitcher's log cache (`cache/<name>_2025.json`). -/
structure PitcherCache where
  logs : List GameLog
  hand : Hand
  team : String

/-- A raw lineup entry that is a dict: `name`/`hand` keys may be absent. -/
structure RawBatter where
  name : Option String
  hand : Option Hand

/-- A cached lineup: the `lineup` list may contain non-dict junk, modelled
as `none` entries (models.py keeps only `isinstance(b, dict)` entries). -/
structure LineupCache where
  lineup : List (Option RawBatter)

/-- A processed batter as produced by `preprocess_batter_from_lineup`. -/
structure Batter where
  name : String
  hand : Hand
  k_percent : ℝ
  woba : ℝ
  whiff_percent : ℝ
  put_away : ℝ
  matched : Bool

def sUnknown : String := "Unknown"

def sSL : String := "SL"

def sBreaking : String := "Breaking"

def sFastball : String := "Fastball"

def sOffspeed : String := "Offspeed"

/-- preprocessor.py `preprocess_batter_from_lineup`, effective behaviour.
The source first normalizes the raw name (when the cleaned name contains a
dot it calls `expand_initials`, a name-normalization helper that is not in
the source tree; spec section 1 puts name-matching heuristics out of
scope, and the normalized name is in any case never used afterwards).
Inside the `try` block the source evaluates
`PITCH_MAPPING.get(putaway_pitch, "Breaking")` where `putaway_pitch` is an
unassigned local, so the lookup of real batter stats is never reached and
every dict batter takes the `except` branch: the returned record is the
batter's raw name and hand together with the `LEAGUE_AVG_STATS["Breaking"]`
constants, `matched=False`. -/
noncomputable def preprocess_batter_from_lineup (b : RawBatter) : Batter :=
  { name := b.name.getD sUnknown
    hand := b.hand.getD Hand.R
    k_percent := 0.25
    woba := 0.320
    whiff_percent := 0.30
    put_away := 0.18
    matched := false }

/-- One row of the reference pitcher table (`FINAL_PITCHER_DATA.csv`).
Stat fields that `calculate_stuff_modifier` reads with `.get` defaults are
`Option`s (`none` models a missing column/NaN). -/
structure PitcherRow where
  name : String
  stuffPlus : Option ℝ
  k_pct : Option ℝ
  swstr : Option ℝ
  csw : Option ℝ
  velo : Option ℝ
  chase : Option ℝ
  z_contact : Option ℝ
  putawayLHB : String
  putawayRHB : String

/-- The reference pitcher table.  `hasNameCol` models whether
`get_column_name` finds a name column; `hasPutawayCols` whether both
putaway-pitch columns exist. -/
structure PitcherTable where
  hasNameCol : Bool
  hasPutawayCols : Bool
  rows : List PitcherRow

/-- One row of a team-trend table.  `k_pct` models a literal `k_pct`
column (the key probed by `calculate_team_trend_modifier` and first by
`scale_ip_mean`); `kPctPct` the `K%` column of the raw CSV (probed by the
matchup lookup in models.py and as `scale_ip_mean`'s second k key);
`wrcPlus` / `wrc_plus` the two wRC+ keys probed by `scale_ip_mean`.
`none` models an absent column or NaN. -/
structure TrendRow where
  team : String
  k_pct : Option ℝ
  kPctPct : Option ℝ
  wrcPlus : Option ℝ
  wrc_plus : Option ℝ

/-- Python `a if a is present else b` on two optional fields
(`row.get(k1, row.get(k2, d))` is `(chooseOpt f1 f2).getD d`). -/
def chooseOpt (a b : Option ℝ) : Option ℝ :=
  match a with
  | some v => some v
  | none => b

/-- The whole external environment of one projection query: the caches and
reference tables the composer reads, plus the two `difflib`
fuzzy-matching oracles (standard-library code, not part of this
repository): `teamFuzzy` models `get_close_matches(_, _, n=1, cutoff=0.8)`
and `nameFuzzy` models `get_close_matches(_, _, n=3, cutoff=0.6)`. -/
structure Env where
  pitcherCache : String → Option PitcherCache
  lineupCache : String → Option LineupCache
  pitcherTable : PitcherTable
  l21_lhp : List TrendRow
  l21_rhp : List TrendRow
  delta_lhp : List TrendRow
  delta_rhp : List TrendRow
  teamFuzzy : String → List String → Option String
  nameFuzzy : String → List String → List String

/-- `get_recent_team_row` (stats_logic.py / modifiers.py): exact match on
the upper-cased, stripped team name, then one fuzzy candidate (cutoff
0.8).  Returns `none` on no match (the team-column-missing and
empty-frame guards of the source also return `none`; the embedding keys
rows by team directly). -/
def getRecentTeamRow (fz : String → List String → Option String)
    (team_name : String) (rows : List TrendRow) : Option TrendRow :=
  let t := team_name.trim.toUpper
  match rows.find? (fun r => r.team.trim.toUpper == t) with
  | some r => some r
  | none =>
    match fz t (rows.map fun r => r.team.trim.toUpper) with
    | some c => rows.find? (fun r => r.team.trim.toUpper == c)
    | none => none

/-- modifiers.py `calculate_catcher_framing_modifier`:
`1 + (framing_runs * -3.94 / 100)` clamped to [0.95, 1.05]; an unknown
name contributes 0 runs. -/
noncomputable def calculate_catcher_framing_modifier (catcher_name : String) : ℝ :=
  let m := ((CATCHER_FRAMING_DICT.find? fun e => e.1 == catcher_name).map (fun e => e.2)).getD 0
  clip (1 + m * (-3.94) / 100) 0.95 1.05

/-- modifiers.py `get_park_modifier`: first entry of `PARK_FACTORS` whose
lower-cased official name contains the normalized query as a substring;
1.0 when none does. -/
noncomputable def get_park_modifier (park_name : String) : ℝ :=
  let normalized := park_name.trim.toLower
  match PARK_FACTORS.find? (fun e => strContains e.1.toLower normalized) with
  | some e => e.2
  | none => 1.0

/-- `PARK_FACTORS.get(park, 1.0)` — the exact-key dictionary lookup used
by `scale_ip_mean`. -/
noncomputable def parkFactorLookup (park : String) : ℝ :=
  ((PARK_FACTORS.find? fun e => e.1 == park).map (fun e => e.2)).getD 1.0

/-- The percentage normalization `if k > 1.0: k /= 100` applied by both
`calculate_team_trend_modifier` and `scale_ip_mean`. -/
noncomputable def normK (r : ℝ) : ℝ := if 1 < r then r / 100 else r

/-- modifiers.py `calculate_team_trend_modifier`: on found team data
(both the recent and the delta table resolve the team) it is
`clip(0.98 + 0.25*(rec_k / LEAGUE_AVG_TEAM_K_PCT) + delta_k, 0.85, 1.15)`
with `rec_k` percentage-normalized; any failure (either lookup `None`)
takes the `except` branch: 1.05 for a left-handed pitcher, 1.02 for a
right-handed one. -/
noncomputable def calculate_team_trend_modifier (fz : String → List String → Option String)
    (team_name : String) (hand : Hand)
    (l21L l21R dL dR : List TrendRow) : ℝ :=
  let recent := if hand = Hand.L then l21L else l21R
  let delta := if hand = Hand.L then dL else dR
  match getRecentTeamRow fz team_name recent, getRecentTeamRow fz team_name delta with
  | some tr, some td =>
    let rec1 := normK (tr.k_pct.getD LEAGUE_AVG_TEAM_K_PCT)
    let dk := td.k_pct.getD 0
    clip (0.98 + 0.25 * (rec1 / LEAGUE_AVG_TEAM_K_PCT) + dk) 0.85 1.15
  | _, _ => if hand = Hand.L then 1.05 else 1.02

/-- The k value `scale_ip_mean` extracts from a recent-trend row:
`recent_data.get("k_pct", recent_data.get("K%", LEAGUE_AVG_TEAM_K_PCT))`,
percentage-normalized. -/
noncomputable def scaleKOf (r : TrendRow) : ℝ :=
  normK ((chooseOpt r.k_pct r.kPctPct).getD LEAGUE_AVG_TEAM_K_PCT)

/-- The wRC+ delta `scale_ip_mean` extracts from a delta-trend row:
`delta_data.get("wRC+", delta_data.get("wrc_plus", 0))`. -/
noncomputable def scaleWrcOf (r : TrendRow) : ℝ :=
  (chooseOpt r.wrcPlus r.wrc_plus).getD 0

/-- The conditions under which the arithmetic of `scale_ip_mean` raises
in Python and control falls to the `except` fallback: a zero or negative
base for the fractional powers (`100 + wrc_delta ≤ 0` gives a division by
zero or a complex power; a negative normalized k gives a complex power,
and the complex value is rejected by `np.clip`). -/
def scaleIpFails (rd dd : Option TrendRow) : Prop :=
  (∃ r, rd = some r ∧ scaleKOf r < 0) ∨ (∃ r, dd = some r ∧ 100 + scaleWrcOf r ≤ 0)

/-- stats_logic.py `scale_ip_mean`: park factor (exact dict key, default
1.0) times `(team_k / league)^0.5` (when the recent row resolves) times
`(100 / (100 + wrc_delta))^0.3` (when the delta row resolves), the
combined factor clamped to [0.8, 1.2] and multiplied onto `base_ip`; on
an arithmetic failure the `except` branch returns
`min(max(base_ip, 4.0), 6.5)`. -/
noncomputable def scale_ip_mean (fz : String → List String → Option String)
    (base_ip : ℝ) (opponent : String) (hand : Hand) (park : String)
    (l21L l21R dL dR : List TrendRow) : ℝ :=
  let recent := if hand = Hand.L then l21L else l21R
  let delta := if hand = Hand.L then dL else dR
  let rd := getRecentTeamRow fz opponent recent
  let dd := getRecentTeamRow fz opponent delta
  if scaleIpFails rd dd then min (max base_ip 4.0) 6.5
  else
    let pf := parkFactorLookup park
    let kf := match rd with
      | some r => (scaleKOf r / LEAGUE_AVG_TEAM_K_PCT) ^ (0.5 : ℝ)
      | none => 1
    let wf := match dd with
      | some r => (100 / (100 + scaleWrcOf r)) ^ (0.3 : ℝ)
      | none => 1
    base_ip * clip (pf * kf * wf) 0.8 1.2

/-- modifiers.py `calculate_stuff_modifier`, lines 119-149: the weighted
sum of centered component scores (Stuff+, fastball velocity, K% scaled by
a recent-form factor over the last three logs, SwStr%,
chase-minus-zone-contact, CSW%).  Missing stats take the documented
`.get` defaults.  The recent K rate divides strikeouts by innings per
log; the embedding's real division is total. -/
noncomputable def stuffTotal (row : PitcherRow) (logs : List GameLog) : ℝ :=
  let stuff_plus := row.stuffPlus.getD 100.0
  let k_pct := row.k_pct.getD 0.22
  let swstr := row.swstr.getD 0.105
  let csw := row.csw.getD 0.27
  let velo := row.velo.getD 92.0
  let chase := row.chase.getD 0.30
  let z_contact := row.z_contact.getD 0.88
  let stuff_score := (stuff_plus - 100) / 125
  let velo_score := (velo - 92) * 0.008
  let recent_k_rate :=
    if logs.isEmpty then k_pct
    else mean ((lastN 3 (logs.map fun l => l.strikeouts / l.innings_pitched)))
  let recent_factor := clip (recent_k_rate / k_pct) 0.9 1.1
  let k_score := (k_pct - 0.22) * 1.2 * recent_factor
  let swstr_score := (swstr - 0.11) * 0.7
  let chase_whiff := (chase - 0.28) * 0.5 - (z_contact - 0.87) * 0.5
  stuff_score * 0.35 + velo_score * 0.15 + k_score * 0.8 +
    swstr_score * 0.6 + chase_whiff * 0.4 + (csw - 0.27) * 0.3

/-- modifiers.py `calculate_stuff_modifier`, line 152:
`clip(1 + total, 0.85, 1.20)`. -/
noncomputable def calculate_stuff_modifier (row : PitcherRow) (logs : List GameLog) : ℝ :=
  clip (1 + stuffTotal row logs) 0.85 1.20

/-- modifiers.py `get_dynamic_weights`: base vector
`[0.3, 0.25, 0.25, 0.2, 0.2]` (matchup, platoon, park, team trend, batter
vulnerability); when the pitch-type list has exactly one distinct entry,
index 4 gains 0.1 and indices 0 and 2 each lose 0.05.  The hand argument
is accepted and ignored, as in the source. -/
noncomputable def get_dynamic_weights (_hand : Hand) (pitch_types : List String) : List ℝ :=
  if pitch_types.eraseDups.length = 1 then
    [0.3 - 0.05, 0.25, 0.25 - 0.05, 0.2, 0.2 + 0.1]
  else
    [0.3, 0.25, 0.25, 0.2, 0.2]

/-- Per-pitch-category league averages (k, woba, whiff, putaway) used by
`calculate_batter_vulnerability_mod`; an unknown category defaults to the
Breaking row. -/
structure PitchAvg where
  k : ℝ
  woba : ℝ
  whiff : ℝ
  putaway : ℝ

/-- The `league_avgs` table of `calculate_batter_vulnerability_mod`. -/
noncomputable def leagueAvgsFor (pitch_type : String) : PitchAvg :=
  if pitch_type == sBreaking then ⟨0.25, 0.320, 0.30, 0.18⟩
  else if pitch_type == sFastball then ⟨0.18, 0.350, 0.15, 0.12⟩
  else if pitch_type == sOffspeed then ⟨0.22, 0.330, 0.25, 0.16⟩
  else ⟨0.25, 0.320, 0.30, 0.18⟩

/-- modifiers.py `calculate_batter_vulnerability_mod`: per batter, a
signed vulnerability score against the pitch-type league averages, scaled
by the platoon boost (1.1 opposite-handed, 0.95 same-handed) and the
pitcher-quality multiplier, converted through `clip(1 + score*1.8, 0.85,
1.15)` and averaged over the lineup; 1.0 for an empty lineup. -/
noncomputable def calculate_batter_vulnerability_mod (batters : List Batter)
    (pitch_type : String) (pitcher_hand : Hand) (pitcher_quality : ℝ) : ℝ :=
  if batters.isEmpty then 1.0
  else
    let avg := leagueAvgsFor pitch_type
    mean (batters.map fun b =>
      let boost : ℝ := if pitcher_hand ≠ b.hand then 1.1 else 0.95
      let score := (0.30 * (b.k_percent - avg.k) + 0.25 * (b.whiff_percent - avg.whiff) +
        0.15 * (b.put_away - avg.putaway) - 0.30 * (b.woba - avg.woba)) * boost * pitcher_quality
      clip (1 + score * 1.8) 0.85 1.15)

/-- models.py `get_putaway_pitch`: exact (stripped, lower-cased) name
lookup in the reference table; the putaway column is chosen by the
majority handedness of the opposing lineup; every missing piece defaults
to `"SL"`. -/
def get_putaway_pitch (tbl : PitcherTable) (pitcher_name : String)
    (lineup : List Batter) : String :=
  if tbl.hasNameCol then
    match tbl.rows.find? (fun r => r.name.trim.toLower == pitcher_name.toLower) with
    | some row =>
      let nL := (lineup.filter fun b => b.hand == Hand.L).length
      let nR := lineup.length - nL
      if tbl.hasPutawayCols then (if nR < nL then row.putawayLHB else row.putawayRHB) else sSL
    | none => sSL
  else sSL

/-- models.py lines 186-208: locate the pitcher in the reference table —
no recognizable name column means the pitcher cannot be resolved at all;
otherwise an exact match on the stripped lower-cased name, then the
fuzzy candidates (`difflib`, top 3, cutoff 0.6) tried in order, keeping
the first that matches a row. -/
def locatePitcher (tbl : PitcherTable) (fz : String → List String → List String)
    (pitcher_name : String) : Option PitcherRow :=
  if tbl.hasNameCol then
    let target := pitcher_name.toLower
    match tbl.rows.find? (fun r => r.name.trim.toLower == target) with
    | some r => some r
    | none =>
      (fz target (tbl.rows.map fun r => r.name.trim.toLower)).findSome?
        (fun m => tbl.rows.find? (fun r => r.name.trim.toLower == m))
  else none

/-- Everything the composer computes for one successful projection:
every modifier, the weight vector, the base figures, and the argument
triple handed to `simulate_ks` (models.py line 252 passes
`(adjusted_mean, dispersion, scaled_ip)`). -/
structure ProjDetails where
  matchup_mod : ℝ
  platoon_mod : ℝ
  park_mod : ℝ
  team_trend_mod : ℝ
  stuff_mod : ℝ
  framing_mod : ℝ
  batter_vuln_mod : ℝ
  weights : List ℝ
  base_ks : ℝ
  base_ip : ℝ
  scaled_ip : ℝ
  dispersion : ℝ
  total_mod : ℝ
  adjusted_mean : ℝ
  simArgs : ℝ × ℝ × ℝ

noncomputable instance : Inhabited ProjDetails :=
  ⟨⟨1, 1, 1, 1, 1, 1, 1, [], 0, 0, 0, 0, 1, 0, (0, 0, 0)⟩⟩

/-- models.py lines 113-279, the pure body of `project_strikeouts` once
the pitcher cache, the processed lineup and the reference row have been
resolved.  Mirrors the source's computations line by line (the source
interleaves them with the `None` gates; they are all pure). -/
noncomputable def buildDetails (env : Env) (pitcher_name opponent_team park : String)
    (pc : PitcherCache) (lineup : List Batter) (row : PitcherRow) : ProjDetails :=
  let ks_logs := pc.logs.map fun l => l.strikeouts
  let ip_logs := pc.logs.map fun l => l.innings_pitched
  let framing_mod := calculate_catcher_framing_modifier pc.team
  let trend_raw := if pc.hand = Hand.L then env.l21_lhp else env.l21_rhp
  let team_k_pct :=
    ((trend_raw.find? fun r => r.team == opponent_team).bind (fun r => r.kPctPct)).getD
      LEAGUE_AVG_TEAM_K_PCT
  let matchup_mod := clip (0.9 + 0.2 * (team_k_pct / LEAGUE_AVG_TEAM_K_PCT)) 0.85 1.15
  let platoon_mod := mean (lineup.map fun b => get_platoon_modifier pc.hand b.hand)
  let park_mod := get_park_modifier park
  let team_trend_mod := calculate_team_trend_modifier env.teamFuzzy opponent_team.trim
    pc.hand env.l21_lhp env.l21_rhp env.delta_lhp env.delta_rhp
  let putaway := get_putaway_pitch env.pitcherTable pitcher_name lineup
  let stuff_mod := calculate_stuff_modifier row pc.logs
  let weights := get_dynamic_weights pc.hand [putaway]
  let base_ks := if ks_logs.isEmpty then LEAGUE_AVG_K else calculate_ewma ks_logs 0.25
  let base_ip := if ip_logs.isEmpty then 5.0 else calculate_ewma ip_logs 0.25
  let scaled_ip := scale_ip_mean env.teamFuzzy base_ip opponent_team pc.hand park
    env.l21_lhp env.l21_rhp env.delta_lhp env.delta_rhp
  let dispersion := if 5 ≤ ks_logs.length then listStd (lastN 5 ks_logs) else 1.0
  let batter_vuln_mod := calculate_batter_vulnerability_mod lineup putaway pc.hand 1.0
  let total0 := 1.0 + ((matchup_mod - 1) * weights.getD 0 0 + (platoon_mod - 1) * weights.getD 1 0 +
    (park_mod - 1) * weights.getD 2 0 + (team_trend_mod - 1) * weights.getD 3 0 +
    (batter_vuln_mod - 1) * weights.getD 4 0)
  let total_mod := clip (total0 * stuff_mod * framing_mod) 0.85 1.15
  let adjusted_mean := base_ks * total_mod
  { matchup_mod := matchup_mod
    platoon_mod := platoon_mod
    park_mod := park_mod
    team_trend_mod := team_trend_mod
    stuff_mod := stuff_mod
    framing_mod := framing_mod
    batter_vuln_mod := batter_vuln_mod
    weights := weights
    base_ks := base_ks
    base_ip := base_ip
    scaled_ip := scaled_ip
    dispersion := dispersion
    total_mod := total_mod
    adjusted_mean := adjusted_mean
    simArgs := (adjusted_mean, dispersion, scaled_ip) }

/-- models.py `project_strikeouts`: the four `None` gates in source order
— missing pitcher log cache, missing opponent lineup cache, a processed
lineup with zero usable batters, and a pitcher that cannot be resolved in
the reference table — otherwise the composed projection. -/
noncomputable def project_strikeouts (env : Env)
    (pitcher_name opponent_team park : String) : Option ProjDetails :=
  match env.pitcherCache pitcher_name with
  | none => none
  | some pc =>
    match env.lineupCache opponent_team with
    | none => none
    | some lc =>
      let lineup := (lc.lineup.filterMap id).map preprocess_batter_from_lineup
      if lineup.isEmpty then none
      else
        match locatePitcher env.pitcherTable env.nameFuzzy pitcher_name with
        | none => none
        | some row => some (buildDetails env pitcher_name opponent_team park pc lineup row)

/-! ### A concrete environment

A small fully explicit environment used to evaluate the composer on a
concrete query: pitcher `"vance"` whose cache exists but holds zero game
logs, opponent `"NYY"` with a one-batter lineup, and the park `"zz"`
which matches no park-table entry. -/

def nVance : String := "vance"

def nNYY : String := "NYY"

def nParkZZ : String := "zz"

def nTeamUNK : String := "UNK"

def nBob : String := "bob"

/-- The cached pitcher record: no logs, right-handed, team `"UNK"`. -/
def pcC : PitcherCache := { logs := [], hand := Hand.R, team := nTeamUNK }

/-- The single raw lineup entry: a right-handed batter named `"bob"`. -/
def rbC : RawBatter := { name := some nBob, hand := some Hand.R }

/-- The cached lineup for `"NYY"`. -/
def lcC : LineupCache := { lineup := [some rbC] }

/-- The reference-table row for `"vance"`: every stat column missing. -/
def rowC : PitcherRow :=
  { name := nVance, stuffPlus := none, k_pct := none, swstr := none, csw := none,
    velo := none, chase := none, z_contact := none, putawayLHB := sSL, putawayRHB := sSL }

/-- The processed one-batter lineup of the concrete query. -/
noncomputable def lineupC : List Batter := [preprocess_batter_from_lineup rbC]

/-- A fuzzy oracle that never matches. -/
def fzNone : String → List String → Option String := fun _ _ => none

/-- A top-3 fuzzy oracle that never matches. -/
def fzNone3 : String → List String → List String := fun _ _ => []

/-- The concrete environment. -/
noncomputable def envC : Env :=
  { pitcherCache := fun n => if n = nVance then some pcC else none
    lineupCache := fun t => if t = nNYY then some lcC else none
    pitcherTable := { hasNameCol := true, hasPutawayCols := false, rows := [rowC] }
    l21_lhp := []
    l21_rhp := []
    delta_lhp := []
    delta_rhp := []
    teamFuzzy := fzNone
    nameFuzzy := fzNone3 }

/-- The details record the composer produces for the concrete query. -/
noncomputable def dWitC : ProjDetails :=
  buildDetails envC nVance nNYY nParkZZ pcC lineupC rowC

/-! ### Helper lemmas -/

theorem clip_lower (x lo hi : ℝ) (h : lo ≤ hi) : lo ≤ clip x lo hi :=
  le_min (le_max_right x lo) h

theorem clip_upper (x lo hi : ℝ) : clip x lo hi ≤ hi :=
  min_le_right _ _

theorem clip_mono {x y : ℝ} (lo hi : ℝ) (h : x ≤ y) : clip x lo hi ≤ clip y lo hi :=
  min_le_min (max_le_max h le_rfl) le_rfl

theorem clip_eq_self {x lo hi : ℝ} (hlo : lo ≤ hi)
    (h1 : clip x lo hi ≠ lo) (h2 : clip x lo hi ≠ hi) : clip x lo hi = x := by
  rcases le_total x lo with h | h
  · exact absurd (by simp [clip, max_eq_right h, min_eq_left hlo]) h1
  · rcases le_total x hi with h' | h'
    · simp [clip, max_eq_left h, min_eq_left h']
    · exact absurd (by simp [clip, max_eq_left h, min_eq_right h']) h2

/-- Inversion of the composer: a successful projection is exactly a
resolved pitcher cache, a resolved and non-empty processed lineup, and a
resolved reference row, with the details built from them. -/
theorem project_some_iff (env : Env) (p o k : String) (d : ProjDetails) :
    project_strikeouts env p o k = some d ↔
      ∃ pc lc row, env.pitcherCache p = some pc ∧ env.lineupCache o = some lc ∧
        ((lc.lineup.filterMap id).map preprocess_batter_from_lineup).isEmpty = false ∧
        locatePitcher env.pitcherTable env.nameFuzzy p = some row ∧
        d = buildDetails env p o k pc
          ((lc.lineup.filterMap id).map preprocess_batter_from_lineup) row := by
  constructor
  · intro h
    cases hpc : env.pitcherCache p with
    | none => simp [project_strikeouts, hpc] at h
    | some pc =>
      cases hlc : env.lineupCache o with
      | none => simp [project_strikeouts, hpc, hlc] at h
      | some lc =>
        cases hE : ((lc.lineup.filterMap id).map preprocess_batter_from_lineup).isEmpty with
        | true => simp [project_strikeouts, hpc, hlc, hE] at h
        | false =>
          cases hloc : locatePitcher env.pitcherTable env.nameFuzzy p with
          | none => simp [project_strikeouts, hpc, hlc, hE, hloc] at h
          | some row =>
            refine ⟨pc, lc, row, rfl, rfl, hE, rfl, ?_⟩
            simp [project_strikeouts, hpc, hlc, hE, hloc] at h
            exact h.symm
  · rintro ⟨pc, lc, row, hpc, hlc, hE, hloc, rfl⟩
    simp [project_strikeouts, hpc, hlc, hE, hloc]

/-! ### The claims -/

/-- C9: the weight selector returns the base vector
[matchup=0.30, platoon=0.25, park=0.25, team_trend=0.20, batter_vuln=0.20]
whenever the pitch-type list has more than one distinct category, the
adjusted vector (batter-vulnerability +0.10, matchup and park each -0.05)
when it reduces to a single distinct category, and in both cases the
weights sum to exactly 1.20. -/
theorem C9_weights :
    (∀ (hand : Hand) (pts : List String), 1 < pts.eraseDups.length →
        get_dynamic_weights hand pts = [0.3, 0.25, 0.25, 0.2, 0.2]) ∧
    (∀ (hand : Hand) (pts : List String), pts.eraseDups.length = 1 →
        get_dynamic_weights hand pts = [0.25, 0.25, 0.2, 0.2, 0.3]) ∧
    (∀ (hand : Hand) (pts : List String), (get_dynamic_weights hand pts).sum = 1.2) := by
  refine ⟨?_, ?_, ?_⟩
  · intro hand pts h
    rw [get_dynamic_weights, if_neg (by omega)]
  · intro hand pts h
    rw [get_dynamic_weights, if_pos h]
    norm_num
  · intro hand pts
    by_cases h : pts.eraseDups.length = 1
    · rw [get_dynamic_weights, if_pos h]
      norm_num [List.sum_cons, List.sum_nil]
    · rw [get_dynamic_weights, if_neg h]
      norm_num [List.sum_cons, List.sum_nil]

/-- C9 witness: a two-category list keeps the base vector, a
single-category list takes the adjusted vector, and both sum to 1.20. -/
theorem C9_weights_witness :
    get_dynamic_weights Hand.R [sSL, sBreaking] = [0.3, 0.25, 0.25, 0.2, 0.2] ∧
    get_dynamic_weights Hand.L [sSL] = [0.25, 0.25, 0.2, 0.2, 0.3] ∧
    (get_dynamic_weights Hand.L [sSL]).sum = 1.2 :=
  ⟨C9_weights.1 Hand.R [sSL, sBreaking] (by decide),
   C9_weights.2.1 Hand.L [sSL] (by decide),
   C9_weights.2.2 Hand.L [sSL]⟩

/-- C4: the composer returns no result exactly when (a) the pitcher log
cache is missing, (b) the opponent lineup cache is missing, (c) the
opponent lineup resolves to zero usable batters, or (d) the pitcher
cannot be resolved in the reference table (no exact match and no usable
fuzzy candidate, the degenerate missing-name-column table included);
every other lookup failure degrades to a default inside `buildDetails`
and a projection is still produced. -/
theorem C4_none_iff (env : Env) (p o k : String) :
    project_strikeouts env p o k = none ↔
      env.pitcherCache p = none ∨ env.lineupCache o = none ∨
      (∃ lc, env.lineupCache o = some lc ∧
        ((lc.lineup.filterMap id).map preprocess_batter_from_lineup).isEmpty = true) ∨
      locatePitcher env.pitcherTable env.nameFuzzy p = none := by
  cases hpc : env.pitcherCache p with
  | none => simp [project_strikeouts, hpc]
  | some pc =>
    cases hlc : env.lineupCache o with
    | none => simp [project_strikeouts, hpc, hlc]
    | some lc =>
      cases hE : ((lc.lineup.filterMap id).map preprocess_batter_from_lineup).isEmpty with
      | true =>
        simp only [project_strikeouts, hpc, hlc, hE]
        constructor
        · intro _
          exact Or.inr (Or.inr (Or.inl ⟨lc, rfl, hE⟩))
        · intro _
          rfl
      | false =>
        cases hloc : locatePitcher env.pitcherTable env.nameFuzzy p with
        | none => simp [project_strikeouts, hpc, hlc, hE, hloc]
        | some row =>
          simp [project_strikeouts, hpc, hlc, hE, hloc]
          have h1 : lc.lineup.filterMap id ≠ [] := by
            intro hnil
            rw [hnil] at hE
            simp at hE
          rcases List.exists_mem_of_ne_nil _ h1 with ⟨b, hb⟩
          rcases List.mem_filterMap.mp hb with ⟨x, hx, hxb⟩
          refine ⟨x, hx, ?_⟩
          intro hxn
          rw [hxn] at hxb
          cases hxb

/-- C7: with found team data the trend modifier is
`clip(0.98 + 0.25*(rec_k / LEAGUE_AVG_TEAM_K_PCT) + delta_k, 0.85, 1.15)`
(`rec_k` the percentage-normalized recent K fraction, `delta_k` the delta
row's value); on any data failure it is exactly 1.05 for a left-handed
pitcher and 1.02 for a right-handed one — in particular a team absent
from the trend tables with a left-handed pitcher gives 1.05. -/
theorem C7_team_trend :
    (∀ (fz : String → List String → Option String) (team : String) (hand : Hand)
        (l21L l21R dL dR : List TrendRow) (tr td : TrendRow),
        getRecentTeamRow fz team (if hand = Hand.L then l21L else l21R) = some tr →
        getRecentTeamRow fz team (if hand = Hand.L then dL else dR) = some td →
        calculate_team_trend_modifier fz team hand l21L l21R dL dR =
          clip (0.98 + 0.25 * (normK (tr.k_pct.getD LEAGUE_AVG_TEAM_K_PCT) /
            LEAGUE_AVG_TEAM_K_PCT) + td.k_pct.getD 0) 0.85 1.15) ∧
    (∀ (fz : String → List String → Option String) (team : String) (hand : Hand)
        (l21L l21R dL dR : List TrendRow),
        (getRecentTeamRow fz team (if hand = Hand.L then l21L else l21R) = none ∨
         getRecentTeamRow fz team (if hand = Hand.L then dL else dR) = none) →
        calculate_team_trend_modifier fz team hand l21L l21R dL dR =
          if hand = Hand.L then 1.05 else 1.02) := by
  constructor
  · intro fz team hand l21L l21R dL dR tr td h1 h2
    simp [calculate_team_trend_modifier, h1, h2]
  · intro fz team hand l21L l21R dL dR h
    rcases h with h | h
    · simp [calculate_team_trend_modifier, h]
    · cases hx : getRecentTeamRow fz team (if hand = Hand.L then l21L else l21R) with
      | none => simp [calculate_team_trend_modifier, hx, h]
      | some tr => simp [calculate_team_trend_modifier, hx, h]

/-- A concrete recent-trend row for the C7 witness. -/
def trNYY : TrendRow :=
  { team := nNYY, k_pct := some 0.25, kPctPct := none, wrcPlus := none, wrc_plus := none }

/-- A concrete delta-trend row for the C7 witness. -/
def tdNYY : TrendRow :=
  { team := nNYY, k_pct := some 0.01, kPctPct := none, wrcPlus := none, wrc_plus := none }

/-- C7 witness: the found-data formula at a concrete one-row pair of
tables, and the exact 1.05 fallback for a left-handed pitcher against a
team absent from every trend table. -/
theorem C7_team_trend_witness :
    calculate_team_trend_modifier fzNone nNYY Hand.L [trNYY] [] [tdNYY] [] =
      clip (0.98 + 0.25 * (normK (trNYY.k_pct.getD LEAGUE_AVG_TEAM_K_PCT) /
        LEAGUE_AVG_TEAM_K_PCT) + tdNYY.k_pct.getD 0) 0.85 1.15 ∧
    calculate_team_trend_modifier fzNone nTeamUNK Hand.L [] [] [] [] = 1.05 := by
  constructor
  · exact C7_team_trend.1 fzNone nNYY Hand.L [trNYY] [] [tdNYY] [] trNYY tdNYY
      (by with_unfolding_all rfl) (by with_unfolding_all rfl)
  · have h := C7_team_trend.2 fzNone nTeamUNK Hand.L [] [] [] []
      (Or.inl (by with_unfolding_all rfl))
    simpa using h

/-- C3: on a lookup failure (the `except` path) `scale_ip_mean` returns
`clamp(base_ip, 4.0, 6.5)`, which always lies in [4.0, 6.5]; on the
non-failure path it returns `base_ip` times a combined factor clamped to
[0.8, 1.2]; and with a park absent from the park table and a team absent
from the trend tables the non-failure path applies with combined factor
1, returning `base_ip` itself. -/
theorem C3_scale_ip_bounds :
    ∀ (fz : String → List String → Option String) (base_ip : ℝ) (opp : String)
      (hand : Hand) (park : String) (l21L l21R dL dR : List TrendRow),
      (scaleIpFails (getRecentTeamRow fz opp (if hand = Hand.L then l21L else l21R))
          (getRecentTeamRow fz opp (if hand = Hand.L then dL else dR)) →
        scale_ip_mean fz base_ip opp hand park l21L l21R dL dR =
          min (max base_ip 4.0) 6.5 ∧
        4.0 ≤ scale_ip_mean fz base_ip opp hand park l21L l21R dL dR ∧
        scale_ip_mean fz base_ip opp hand park l21L l21R dL dR ≤ 6.5) ∧
      (¬ scaleIpFails (getRecentTeamRow fz opp (if hand = Hand.L then l21L else l21R))
          (getRecentTeamRow fz opp (if hand = Hand.L then dL else dR)) →
        ∃ c, 0.8 ≤ c ∧ c ≤ 1.2 ∧
          scale_ip_mean fz base_ip opp hand park l21L l21R dL dR = base_ip * c) ∧
      (PARK_FACTORS.find? (fun e => e.1 == park) = none →
        getRecentTeamRow fz opp (if hand = Hand.L then l21L else l21R) = none →
        getRecentTeamRow fz opp (if hand = Hand.L then dL else dR) = none →
        scale_ip_mean fz base_ip opp hand park l21L l21R dL dR = base_ip) := by
  intro fz base_ip opp hand park l21L l21R dL dR
  refine ⟨?_, ?_, ?_⟩
  · intro h
    have he : scale_ip_mean fz base_ip opp hand park l21L l21R dL dR =
        min (max base_ip 4.0) 6.5 := by
      simp only [scale_ip_mean]
      rw [if_pos h]
    refine ⟨he, ?_, ?_⟩
    · rw [he]
      exact le_min (le_max_right _ _) (by norm_num)
    · rw [he]
      exact min_le_right _ _
  · intro h
    simp only [scale_ip_mean]
    rw [if_neg h]
    exact ⟨_, clip_lower _ _ _ (by norm_num), clip_upper _ _ _, rfl⟩
  · intro hp hr hd
    have hnf : ¬ scaleIpFails
        (getRecentTeamRow fz opp (if hand = Hand.L then l21L else l21R))
        (getRecentTeamRow fz opp (if hand = Hand.L then dL else dR)) := by
      simp [scaleIpFails, hr, hd]
    simp only [scale_ip_mean]
    rw [if_neg hnf, hr, hd]
    simp only [parkFactorLookup, hp, Option.map_none', Option.getD_none]
    norm_num [clip, max_eq_left, min_eq_left]

/-- A delta-trend row whose wRC+ delta is -100, driving the wRC factor of
`scale_ip_mean` into a division by zero (the `except` path). -/
def trBad : TrendRow :=
  { team := nTeamUNK, k_pct := none, kPctPct := none, wrcPlus := none, wrc_plus := some (-100) }

/-- C3 witness: empty tables and an unknown park leave `base_ip`
unchanged (= 5), and a wRC+ delta of -100 takes the failure path, giving
`clamp(10, 4.0, 6.5) = 6.5`. -/
theorem C3_scale_ip_witness :
    scale_ip_mean fzNone 5 nTeamUNK Hand.R nParkZZ [] [] [] [] = 5 ∧
    scale_ip_mean fzNone 10 nTeamUNK Hand.R nParkZZ [] [] [trBad] [trBad] = 6.5 := by
  constructor
  · exact (C3_scale_ip_bounds fzNone 5 nTeamUNK Hand.R nParkZZ [] [] [] []).2.2
      (by with_unfolding_all rfl) (by with_unfolding_all rfl) (by with_unfolding_all rfl)
  · have h := (C3_scale_ip_bounds fzNone 10 nTeamUNK Hand.R nParkZZ [] [] [trBad] [trBad]).1
      (Or.inr ⟨trBad, by with_unfolding_all rfl,
        by norm_num [scaleWrcOf, chooseOpt, trBad]⟩)
    rw [h.1, max_eq_left (by norm_num), min_eq_right (by norm_num)]

/-- The Stuff+ component is the only part of the stuff total that differs
between two records agreeing on every other stat, for any fixed logs. -/
theorem stuffTotal_sub (r1 r2 : PitcherRow) (logs : List GameLog) (x y : ℝ)
    (hk : r1.k_pct = r2.k_pct) (hs : r1.swstr = r2.swstr) (hc : r1.csw = r2.csw)
    (hv : r1.velo = r2.velo) (hch : r1.chase = r2.chase) (hz : r1.z_contact = r2.z_contact)
    (h1 : r1.stuffPlus = some x) (h2 : r2.stuffPlus = some y) :
    stuffTotal r2 logs - stuffTotal r1 logs = ((y - x) / 125) * 0.35 := by
  simp only [stuffTotal, hk, hs, hc, hv, hch, hz, h1, h2, Option.getD_some]
  ring

/-- C8: holding every other input fixed, a larger Stuff+ index never
decreases the stuff modifier, and strictly increases it whenever neither
result sits at a clamp bound (0.85 or 1.20). -/
theorem C8_stuff_monotone :
    ∀ (r1 r2 : PitcherRow) (logs : List GameLog) (x y : ℝ),
      r1.k_pct = r2.k_pct → r1.swstr = r2.swstr → r1.csw = r2.csw → r1.velo = r2.velo →
      r1.chase = r2.chase → r1.z_contact = r2.z_contact →
      r1.stuffPlus = some x → r2.stuffPlus = some y →
      (x ≤ y → calculate_stuff_modifier r1 logs ≤ calculate_stuff_modifier r2 logs) ∧
      (x < y → calculate_stuff_modifier r1 logs ≠ 0.85 →
        calculate_stuff_modifier r1 logs ≠ 1.20 →
        calculate_stuff_modifier r2 logs ≠ 0.85 →
        calculate_stuff_modifier r2 logs ≠ 1.20 →
        calculate_stuff_modifier r1 logs < calculate_stuff_modifier r2 logs) := by
  intro r1 r2 logs x y hk hs hc hv hch hz h1 h2
  have hsub := stuffTotal_sub r1 r2 logs x y hk hs hc hv hch hz h1 h2
  constructor
  · intro hxy
    apply clip_mono
    linarith
  · intro hxy hn1 hn2 hn3 hn4
    have e1 : calculate_stuff_modifier r1 logs = 1 + stuffTotal r1 logs :=
      clip_eq_self (by norm_num) hn1 hn2
    have e2 : calculate_stuff_modifier r2 logs = 1 + stuffTotal r2 logs :=
      clip_eq_self (by norm_num) hn3 hn4
    rw [e1, e2]
    linarith

/-- A reference row with an average Stuff+ index and every other stat
column missing, for the C8 witness. -/
def rowA : PitcherRow :=
  { name := nVance, stuffPlus := some 100, k_pct := none, swstr := none, csw := none,
    velo := none, chase := none, z_contact := none, putawayLHB := sSL, putawayRHB := sSL }

/-- The same row with Stuff+ raised to 110. -/
def rowB : PitcherRow := { rowA with stuffPlus := some 110 }

/-- C8 witness: raising Stuff+ from 100 (modifier 0.9999) to 110
(modifier 1.0279) with all else fixed strictly increases the stuff
modifier; neither value is pinned at 0.85 or 1.20. -/
theorem C8_stuff_monotone_witness :
    calculate_stuff_modifier rowA [] ≤ calculate_stuff_modifier rowB [] ∧
    calculate_stuff_modifier rowA [] < calculate_stuff_modifier rowB [] := by
  have hA : calculate_stuff_modifier rowA [] = 0.9999 := by
    norm_num [calculate_stuff_modifier, stuffTotal, rowA, clip, min_def, max_def]
  have hB : calculate_stuff_modifier rowB [] = 1.0279 := by
    norm_num [calculate_stuff_modifier, stuffTotal, rowB, rowA, clip, min_def, max_def]
  have h := C8_stuff_monotone rowA rowB [] 100 110 rfl rfl rfl rfl rfl rfl rfl rfl
  exact ⟨h.1 (by norm_num),
    h.2 (by norm_num) (by rw [hA]; norm_num) (by rw [hA]; norm_num)
      (by rw [hB]; norm_num) (by rw [hB]; norm_num)⟩

/-- C6: the platoon modifier of every successful projection is the plain
mean over the processed lineup of the fixed 2-by-2 table keyed by
(pitcher hand, batter hand), with the documented entries LL=0.93,
LR=1.07, RR=0.95, RL=1.05 and no further clamping. -/
theorem C6_platoon_mean :
    (∀ (env : Env) (p o k : String) (d : ProjDetails) (pc : PitcherCache) (lc : LineupCache),
        env.pitcherCache p = some pc → env.lineupCache o = some lc →
        project_strikeouts env p o k = some d →
        d.platoon_mod = mean (((lc.lineup.filterMap id).map preprocess_batter_from_lineup).map
          fun b => get_platoon_modifier pc.hand b.hand)) ∧
    get_platoon_modifier Hand.L Hand.L = 0.93 ∧
    get_platoon_modifier Hand.L Hand.R = 1.07 ∧
    get_platoon_modifier Hand.R Hand.R = 0.95 ∧
    get_platoon_modifier Hand.R Hand.L = 1.05 := by
  refine ⟨?_, rfl, rfl, rfl, rfl⟩
  intro env p o k d pc lc hpc hlc h
  rcases (project_some_iff env p o k d).mp h with ⟨pc', lc', row', hpc', hlc', hE, hloc', rfl⟩
  rw [hpc] at hpc'
  injection hpc' with hpc2
  rw [hlc] at hlc'
  injection hlc' with hlc2
  subst hpc2
  subst hlc2
  rfl

/-- C6 witness: on the concrete query the platoon modifier is the mean of
the table over the one-batter right-on-right lineup, namely 0.95. -/
theorem C6_platoon_witness :
    dWitC.platoon_mod = mean (((lcC.lineup.filterMap id).map preprocess_batter_from_lineup).map
      fun b => get_platoon_modifier pcC.hand b.hand) ∧
    dWitC.platoon_mod = 0.95 := by
  have h := C6_platoon_mean.1 envC nVance nNYY nParkZZ dWitC pcC lcC
    (by with_unfolding_all rfl) (by with_unfolding_all rfl) (by with_unfolding_all rfl)
  refine ⟨h, ?_⟩
  rw [h]
  have hL : ((lcC.lineup.filterMap id).map preprocess_batter_from_lineup) =
      [preprocess_batter_from_lineup rbC] := rfl
  rw [hL]
  have hB : get_platoon_modifier pcC.hand (preprocess_batter_from_lineup rbC).hand =
      0.95 := rfl
  simp only [List.map_cons, List.map_nil, hB]
  norm_num [mean, List.sum_cons, List.sum_nil]

/-- C10: every successful projection hands the weight selector the
one-element pitch list `[putaway_pitch]`, so the single-category
adjustment always fires and the weights actually used are always
[0.25, 0.25, 0.20, 0.20, 0.30], never the unadjusted base vector. -/
theorem C10_weights_always_adjusted :
    ∀ (env : Env) (p o k : String) (d : ProjDetails),
      project_strikeouts env p o k = some d →
      (∃ pc lc, env.pitcherCache p = some pc ∧ env.lineupCache o = some lc ∧
        d.weights = get_dynamic_weights pc.hand
          [get_putaway_pitch env.pitcherTable p
            ((lc.lineup.filterMap id).map preprocess_batter_from_lineup)]) ∧
      d.weights = [0.25, 0.25, 0.2, 0.2, 0.3] := by
  intro env p o k d h
  rcases (project_some_iff env p o k d).mp h with ⟨pc, lc, row, hpc, hlc, hE, hloc, rfl⟩
  constructor
  · exact ⟨pc, lc, hpc, hlc, rfl⟩
  · have hw : (buildDetails env p o k pc
        ((lc.lineup.filterMap id).map preprocess_batter_from_lineup) row).weights =
        get_dynamic_weights pc.hand
          [get_putaway_pitch env.pitcherTable p
            ((lc.lineup.filterMap id).map preprocess_batter_from_lineup)] := rfl
    have hone : ([get_putaway_pitch env.pitcherTable p
        ((lc.lineup.filterMap id).map preprocess_batter_from_lineup)].eraseDups).length = 1 := rfl
    rw [hw, get_dynamic_weights, if_pos hone]
    norm_num

/-- C10 witness: on the concrete query the weight vector is the adjusted
one. -/
theorem C10_weights_witness : dWitC.weights = [0.25, 0.25, 0.2, 0.2, 0.3] :=
  (C10_weights_always_adjusted envC nVance nNYY nParkZZ dWitC
    (by with_unfolding_all rfl)).2

/-- C1: the claim is right about the simulator's contract but the call
site violates it.  On the concrete query (pitcher cache present with an
empty log list) the composer hands `simulate_ks` the triple
`(adjusted_mean, dispersion, scaled_ip)`: the second argument is the
strikeout-dispersion fallback 1.0, not the baseline innings figure,
which is 5.0 and equal to the EWMA of the innings-pitched logs. -/
theorem C1_dispersion_passed_to_simulator :
    project_strikeouts envC nVance nNYY nParkZZ = some dWitC ∧
    dWitC.simArgs = (dWitC.adjusted_mean, dWitC.dispersion, dWitC.scaled_ip) ∧
    dWitC.dispersion = 1.0 ∧
    dWitC.base_ip = 5.0 ∧
    dWitC.base_ip = calculate_ewma (pcC.logs.map fun l => l.innings_pitched) 0.25 ∧
    dWitC.simArgs.2.1 ≠ dWitC.base_ip := by
  refine ⟨by with_unfolding_all rfl, rfl, rfl, rfl, by with_unfolding_all rfl, ?_⟩
  have h1 : dWitC.simArgs.2.1 = 1.0 := rfl
  have h2 : dWitC.base_ip = 5.0 := rfl
  rw [h1, h2]
  norm_num

/-- The combined modifier of any built projection is at least its lower
clamp bound 0.85. -/
theorem buildDetails_total_mod_lower (env : Env) (p o k : String) (pc : PitcherCache)
    (lineup : List Batter) (row : PitcherRow) :
    (0.85:ℝ) ≤ (buildDetails env p o k pc lineup row).total_mod :=
  clip_lower _ _ _ (by norm_num)

/-- C2 counterexample: on the concrete query the pitcher's log list is
empty, so the source uses `LEAGUE_AVG_K = 6.5` as the base while
`calculate_ewma` of the empty strikeout-log list is 5.0; the adjusted
mean therefore differs from EWMA(recent strikeouts) times the clamped
total modifier. -/
theorem C2_base_fallback_counterexample :
    project_strikeouts envC nVance nNYY nParkZZ = some dWitC ∧
    dWitC.adjusted_mean ≠
      calculate_ewma (pcC.logs.map fun l => l.strikeouts) 0.25 * dWitC.total_mod := by
  refine ⟨by with_unfolding_all rfl, ?_⟩
  have h1 : dWitC.adjusted_mean = 6.5 * dWitC.total_mod := rfl
  have h2 : calculate_ewma (pcC.logs.map fun l => l.strikeouts) 0.25 = 5.0 := by
    with_unfolding_all rfl
  have h3 : (0.85:ℝ) ≤ dWitC.total_mod := buildDetails_total_mod_lower _ _ _ _ _ _ _
  rw [h1, h2]
  intro he
  linarith

/-- C2 (amended): for every successful projection the total modifier is
`clip((1 + Σ weight_i * (modifier_i - 1)) * stuff_mod * framing_mod,
0.85, 1.15)` over the five categories in the order matchup, platoon,
park, team trend, batter vulnerability, and the adjusted mean is the
EWMA of the recent strikeout logs times this total modifier when at
least one log exists — with an empty log list the base is the
league-average constant 6.5 instead of the EWMA's empty-list default. -/
theorem C2_composition :
    ∀ (env : Env) (p o k : String) (d : ProjDetails) (pc : PitcherCache) (lc : LineupCache)
      (row : PitcherRow),
      env.pitcherCache p = some pc → env.lineupCache o = some lc →
      locatePitcher env.pitcherTable env.nameFuzzy p = some row →
      project_strikeouts env p o k = some d →
      d.weights = get_dynamic_weights pc.hand
        [get_putaway_pitch env.pitcherTable p
          ((lc.lineup.filterMap id).map preprocess_batter_from_lineup)] ∧
      d.stuff_mod = calculate_stuff_modifier row pc.logs ∧
      d.framing_mod = calculate_catcher_framing_modifier pc.team ∧
      d.total_mod = clip ((1.0 + ((d.matchup_mod - 1) * d.weights.getD 0 0 +
        (d.platoon_mod - 1) * d.weights.getD 1 0 +
        (d.park_mod - 1) * d.weights.getD 2 0 +
        (d.team_trend_mod - 1) * d.weights.getD 3 0 +
        (d.batter_vuln_mod - 1) * d.weights.getD 4 0)) *
          d.stuff_mod * d.framing_mod) 0.85 1.15 ∧
      d.adjusted_mean = (if (pc.logs.map fun l => l.strikeouts).isEmpty then LEAGUE_AVG_K
        else calculate_ewma (pc.logs.map fun l => l.strikeouts) 0.25) * d.total_mod := by
  intro env p o k d pc lc row hpc hlc hloc h
  rcases (project_some_iff env p o k d).mp h with ⟨pc', lc', row', hpc', hlc', hE, hloc', rfl⟩
  rw [hpc] at hpc'
  injection hpc' with hpc2
  rw [hlc] at hlc'
  injection hlc' with hlc2
  rw [hloc] at hloc'
  injection hloc' with hloc2
  subst hpc2
  subst hlc2
  subst hloc2
  exact ⟨rfl, rfl, rfl, rfl, rfl⟩

/-- C2 witness: on the concrete query (empty log list) the amended base
applies and the adjusted mean equals 6.5 times the total modifier. -/
theorem C2_composition_witness :
    dWitC.adjusted_mean = LEAGUE_AVG_K * dWitC.total_mod ∧
    dWitC.stuff_mod = calculate_stuff_modifier rowC pcC.logs := by
  have h := C2_composition envC nVance nNYY nParkZZ dWitC pcC lcC rowC
    (by with_unfolding_all rfl) (by with_unfolding_all rfl) (by with_unfolding_all rfl)
    (by with_unfolding_all rfl)
  refine ⟨?_, h.2.1⟩
  have h5 := h.2.2.2.2
  simpa using h5

/-! ### EWMA lemmas -/

theorem zipWith_mul_sum (a : List ℝ) :
    ∀ b : List ℝ, (List.zipWith (fun x y => x * y) a b).sum =
      ∑ i in Finset.range (min a.length b.length), a.getD i 0 * b.getD i 0 := by
  induction a with
  | nil => intro b; simp
  | cons x xs ih =>
    intro b
    cases b with
    | nil => simp
    | cons y ys =>
      simp only [List.zipWith_cons_cons, List.sum_cons, ih ys, List.length_cons,
        Nat.succ_min_succ, Finset.sum_range_succ']
      simp [List.getD_cons_succ, List.getD_cons_zero]
      ring

theorem map_range_getD (f : ℕ → ℝ) (n i : ℕ) (h : i < n) :
    ((List.range n).map f).getD i 0 = f i := by
  simp [List.getD_eq_getElem?_getD, List.getElem?_map, List.getElem?_range, h]

theorem sum_map_range (f : ℕ → ℝ) (n : ℕ) :
    ((List.range n).map f).sum = ∑ i in Finset.range n, f i := by
  induction n with
  | zero => simp
  | succ m ih =>
    rw [List.range_succ, List.map_append, List.sum_append, Finset.sum_range_succ, ih]
    simp

theorem ewma_empty (alpha : ℝ) : calculate_ewma [] alpha = 5.0 := rfl

/-- The EWMA of a non-empty list is the exponentially weighted average
with weight proportional to `exp(-alpha*i)` for the i-th observation
counted from the end. -/
theorem ewma_formula (l : List ℝ) (alpha : ℝ) (hne : l ≠ []) :
    calculate_ewma l alpha =
      (∑ i in Finset.range l.length,
        Real.exp (-alpha * (i : ℝ)) * l.getD (l.length - 1 - i) 0) /
      (∑ i in Finset.range l.length, Real.exp (-alpha * (i : ℝ))) := by
  have hn : 0 < l.length := List.length_pos.mpr hne
  rw [calculate_ewma, if_neg (by simp [hne])]
  have hcast : ∀ j, j < l.length → ((l.length - 1 - j : ℕ) : ℝ) =
      (l.length : ℝ) - 1 - (j : ℝ) := by
    intro j hj
    rw [Nat.cast_sub (by omega : j ≤ l.length - 1), Nat.cast_sub (by omega : 1 ≤ l.length)]
    simp
  rw [dotList, List.map_map, zipWith_mul_sum, List.length_map, List.length_range, min_self]
  set F : ℕ → ℝ := fun j => Real.exp (-alpha * ((l.length : ℝ) - 1 - (j : ℝ))) with hF
  set S : ℝ := ((List.range l.length).map F).sum with hS
  have hterm : ∀ i ∈ Finset.range l.length,
      ((List.range l.length).map ((fun w => w / S) ∘ F)).getD i 0 * l.getD i 0 =
      (F i * l.getD i 0) / S := by
    intro i hi
    rw [map_range_getD _ l.length i (Finset.mem_range.mp hi)]
    simp only [Function.comp_apply]
    exact div_mul_eq_mul_div _ _ _
  rw [Finset.sum_congr rfl hterm, ← Finset.sum_div, hS, sum_map_range]
  congr 1
  · rw [← Finset.sum_range_reflect
      (fun i => Real.exp (-alpha * (i : ℝ)) * l.getD (l.length - 1 - i) 0) l.length]
    refine Finset.sum_congr rfl fun j hj => ?_
    have hj' := Finset.mem_range.mp hj
    simp only [hF]
    rw [show l.length - 1 - (l.length - 1 - j) = j from by omega, hcast j hj']
  · rw [← Finset.sum_range_reflect (fun i => Real.exp (-alpha * (i : ℝ))) l.length]
    refine Finset.sum_congr rfl fun j hj => ?_
    have hj' := Finset.mem_range.mp hj
    simp only [hF]
    rw [hcast j hj']

theorem ewma_single (x : ℝ) : calculate_ewma [x] 0.25 = x := by
  have h := ewma_formula [x] 0.25 (by simp)
  simpa [Finset.sum_range_one, Real.exp_zero] using h

/-- C5: `calculate_ewma` returns exactly 5.0 on the empty sequence; on a
non-empty sequence it is the average weighted proportionally to
`exp(-alpha*i)` for the i-th-from-the-end observation, normalized by the
total weight; consequently a singleton is returned unchanged. -/
theorem C5_ewma_spec :
    (∀ alpha : ℝ, calculate_ewma [] alpha = 5.0) ∧
    (∀ (l : List ℝ) (alpha : ℝ), l ≠ [] →
      calculate_ewma l alpha =
        (∑ i in Finset.range l.length,
          Real.exp (-alpha * (i : ℝ)) * l.getD (l.length - 1 - i) 0) /
        (∑ i in Finset.range l.length, Real.exp (-alpha * (i : ℝ)))) ∧
    (∀ x : ℝ, calculate_ewma [x] 0.25 = x) :=
  ⟨ewma_empty, ewma_formula, ewma_single⟩

/-- C5 witness: the empty default, the weighted-average formula at the
singleton `[3]`, and `calculate_ewma [3] = 3`. -/
theorem C5_ewma_witness :
    calculate_ewma [] 0.25 = 5.0 ∧
    calculate_ewma [(3:ℝ)] 0.25 =
      (∑ i in Finset.range ([(3:ℝ)].length),
        Real.exp (-(0.25:ℝ) * (i : ℝ)) * ([(3:ℝ)].getD ([(3:ℝ)].length - 1 - i) 0)) /
      (∑ i in Finset.range ([(3:ℝ)].length), Real.exp (-(0.25:ℝ) * (i : ℝ))) ∧
    calculate_ewma [(3:ℝ)] 0.25 = 3 :=
  ⟨C5_ewma_spec.1 0.25, C5_ewma_spec.2.1 [3] 0.25 (by simp), C5_ewma_spec.2.2 3⟩

end Booty
